import Mathlib

/-!
Verification of the request-metrics aggregator of the repository
(src/services/orders/features/metrics_service.py and the metrics routes of
src/services/orders/app.py), as a shallow embedding in Lean 4.

Modelling conventions:
* Python floats (response times, rates) are modelled as exact rationals `ℚ`;
  the comparisons and roundings the claims are about happen at values where
  the IEEE-double computation and the exact-rational one agree.
* `datetime` values are abstract tick counters `ℕ`; rendered uptime strings
  are passed in as parameters, since no claim depends on their text.
* The `defaultdict` keyed by `f"{method}:{endpoint}"` is an association list
  preserving Python-dict insertion order.
* The `deque(maxlen=100)` is a list holding the most recent elements, oldest
  first, newest last.
-/

namespace MetricsService

/-- One record of the per-endpoint `defaultdict` value
`{'count': 0, 'total_time': 0, 'errors': 0, 'last_access': None,
  'response_times': deque(maxlen=100)}` from `MetricsService.__init__`. -/
structure EndpointMetric where
  count : ℕ
  total_time : ℚ
  errors : ℕ
  last_access : Option ℕ
  response_times : List ℚ
deriving Repr, DecidableEq

/-- The default value produced by the `defaultdict` factory on first access. -/
def freshMetric : EndpointMetric :=
  { count := 0, total_time := 0, errors := 0, last_access := none
    response_times := [] }

/-- The store `self.metrics`: insertion-ordered mapping from `"METHOD:endpoint"`
keys to records. -/
def Store : Type := List (String × EndpointMetric)

/-- Dictionary lookup (`self.metrics.get(k)` / `k in self.metrics`): first
binding for the key, scanning in insertion order. Keys are unique, so the
scan order is immaterial for the result. -/
def storeLookup (s : Store) (k : String) : Option EndpointMetric :=
  match s with
  | [] => none
  | (k', m) :: rest => if k' = k then some m else storeLookup rest k

/-- Effect of `self.metrics[key]` on a `defaultdict` followed by mutating the
returned record: an existing binding is updated in place, a missing one is
appended (Python dicts append new keys at the end). -/
def storeUpdate (s : Store) (k : String) (f : EndpointMetric → EndpointMetric) : Store :=
  match s with
  | [] => [(k, f freshMetric)]
  | (k', m) :: rest =>
      if k' = k then (k', f m) :: rest else (k', m) :: storeUpdate rest k f

/-- Append on `deque(maxlen=100)`: add on the right, evict on the left when
the capacity is exceeded. Only one element is added at a time, so a single
`tail` performs the eviction. -/
def dequeAppend (l : List ℚ) (x : ℚ) : List ℚ :=
  let grown := l ++ [x]
  if 100 < grown.length then grown.tail else grown

/-- Body of `track_request` applied to one record: `count += 1`,
`total_time += response_time`, `last_access = datetime.now()`,
`response_times.append(response_time)`, and `errors += 1` when
`status_code >= 400`. -/
def updateMetric (m : EndpointMetric) (status_code : ℕ) (response_time : ℚ)
    (now : ℕ) : EndpointMetric :=
  { count := m.count + 1
    total_time := m.total_time + response_time
    errors := m.errors + (if 400 ≤ status_code then 1 else 0)
    last_access := some now
    response_times := dequeAppend m.response_times response_time }

/-- The `MetricsService.track_request` mutation: key is
`f"{method}:{endpoint}"`; the whole update runs under the single lock. -/
def track_request (s : Store) (endpoint method : String) (status_code : ℕ)
    (response_time : ℚ) (now : ℕ) : Store :=
  storeUpdate s (method ++ ":" ++ endpoint) fun m =>
    updateMetric m status_code response_time now

/-- One inbound request as fed to `track_request`. -/
structure Call where
  endpoint : String
  method : String
  status_code : ℕ
  response_time : ℚ
  now : ℕ
deriving Repr, DecidableEq

/-- The store key a call lands on. -/
def callKey (c : Call) : String := c.method ++ ":" ++ c.endpoint

/-- Feeding one call to `track_request`. -/
def trackStep (s : Store) (c : Call) : Store :=
  track_request s c.endpoint c.method c.status_code c.response_time c.now

/-- Replaying a sequence of requests against the empty store of a fresh
`MetricsService()`. -/
def replay (cs : List Call) : Store :=
  cs.foldl trackStep []

/-- Calls of a sequence that land on one key. -/
def keyCalls (cs : List Call) (k : String) : List Call :=
  cs.filter fun c => callKey c = k

/-- Durations of the calls of a sequence that land on one key, oldest first. -/
def keyDurations (cs : List Call) (k : String) : List ℚ :=
  (keyCalls cs k).map fun c => c.response_time

/-- Folding a list of calls into one record (the in-place mutations
`track_request` performs on the record of a fixed key). -/
def runCalls (m : EndpointMetric) (l : List Call) : EndpointMetric :=
  l.foldl (fun m c => updateMetric m c.status_code c.response_time c.now) m

/-- Folding calls into an optional record, materialising the `defaultdict`
default on the first call. -/
def optRun (o : Option EndpointMetric) (l : List Call) : Option EndpointMetric :=
  l.foldl
    (fun o c => some (updateMetric (o.getD freshMetric) c.status_code c.response_time c.now)) o

/-- The last `n` elements of a list (the survivors of a capacity-`n` deque). -/
def takeLast (n : ℕ) (l : List ℚ) : List ℚ := l.drop (l.length - n)

/-- Python `round` at 0 decimals: nearest integer, ties to even. -/
def roundHalfEven (q : ℚ) : ℤ :=
  let f := ⌊q⌋
  let r := q - f
  if r < 1/2 then f
  else if 1/2 < r then f + 1
  else if f % 2 = 0 then f else f + 1

/-- Python `round(x, 2)`, modelled exactly on rationals. -/
def pyRound2 (q : ℚ) : ℚ := (roundHalfEven (q * 100) : ℚ) / 100

/-- The percentile index `int(len(recent_times) * 0.95)`. For every buffer
length `n ≤ 100` (the deque capacity) the double-precision product rounds to
a value whose truncation equals `⌊19n/20⌋`, so the index is exact here. -/
def percentileIndex (n : ℕ) : ℕ := 19 * n / 20

/-- Python `sorted` on the buffer: ascending order. -/
def sortQ (l : List ℚ) : List ℚ := l.insertionSort (· ≤ ·)

/-- The p95 snapshot `sorted(recent_times)[int(len(recent_times) * 0.95)]
if recent_times else 0` of `get_endpoint_metrics`. -/
def p95raw (l : List ℚ) : ℚ :=
  if l = [] then 0 else (sortQ l).getD (percentileIndex l.length) 0

/-- Values of the Python dicts the service returns, as far as the claims
need to tell them apart. -/
inductive PyVal where
  | int (n : ℤ)
  | rat (q : ℚ)
  | str (s : String)
  | qlist (l : List ℚ)
  | time (t : ℕ)
  | null
deriving Repr, DecidableEq

/-- The raw record as a Python dict, i.e. what `dict(self.metrics.get(endpoint, {}))`
copies: the five internal fields, unchanged. -/
def rawDict (m : EndpointMetric) : List (String × PyVal) :=
  [("count", PyVal.int m.count),
   ("total_time", PyVal.rat m.total_time),
   ("errors", PyVal.int m.errors),
   ("last_access", match m.last_access with
      | some t => PyVal.time t
      | none => PyVal.null),
   ("response_times", PyVal.qlist m.response_times)]

/-- The derived per-key view built in the all-endpoints branch of
`get_endpoint_metrics`. -/
def derivedDict (m : EndpointMetric) : List (String × PyVal) :=
  let avg : ℚ := if 0 < m.count then m.total_time / m.count else 0
  let p95 : ℚ := p95raw m.response_times
  [("total_requests", PyVal.int m.count),
   ("total_errors", PyVal.int m.errors),
   ("error_rate", PyVal.rat (if 0 < m.count then (m.errors : ℚ) / m.count else 0)),
   ("avg_response_time_ms", PyVal.rat (pyRound2 (avg * 1000))),
   ("p95_response_time_ms", PyVal.rat (pyRound2 (p95 * 1000))),
   ("last_access", match m.last_access with
      | some t => PyVal.time t
      | none => PyVal.null)]

/-- The all-endpoints result: derived views keyed by `"METHOD:endpoint"`,
in insertion order. -/
def multiView (s : Store) : List (String × List (String × PyVal)) :=
  s.map fun km => (km.1, derivedDict km.2)

/-- Result shape of `get_endpoint_metrics`: a single dict or the per-key map. -/
inductive QueryOut where
  | single (d : List (String × PyVal))
  | multi (d : List (String × List (String × PyVal)))
deriving Repr, DecidableEq

/-- The `MetricsService.get_endpoint_metrics` read. `if endpoint:` is Python
truthiness, so `None` and the empty string both select the all-endpoints
branch. The single-endpoint branch is `dict(self.metrics.get(endpoint, {}))`:
`dict.get` never inserts into the `defaultdict`, so the store comes back
unchanged; the paired store in the result records that. -/
def get_endpoint_metrics (s : Store) (endpoint : Option String) :
    QueryOut × Store :=
  match endpoint with
  | some e =>
      if e = "" then (QueryOut.multi (multiView s), s)
      else (QueryOut.single (((storeLookup s e).map rawDict).getD []), s)
  | none => (QueryOut.multi (multiView s), s)

/-- Sum of `count` over all records, `sum(m['count'] for m in self.metrics.values())`. -/
def totalRequests (s : Store) : ℕ := (s.map fun km => km.2.count).sum

/-- Sum of `errors` over all records. -/
def totalErrors (s : Store) : ℕ := (s.map fun km => km.2.errors).sum

/-- The Python conditional expression
`'healthy' if total_errors / total_requests < 0.05 else 'degraded' if total_requests > 0 else 'unknown'`.
Python evaluates the division `total_errors / total_requests` first, before
either guard, so a zero denominator raises `ZeroDivisionError`; the final
`'unknown'` arm is only reached with `total_requests == 0`, which already
raised, so it is unreachable. -/
def serviceStatusExpr (total_errors total_requests : ℕ) : Except String String :=
  if total_requests = 0 then Except.error "ZeroDivisionError: division by zero"
  else if (total_errors : ℚ) / total_requests < 1/20 then Except.ok "healthy"
  else if 0 < total_requests then Except.ok "degraded"
  else Except.ok "unknown"

/-- The health summary dict of `get_health_metrics`. Uptime values depend on
wall-clock time and are passed in; no claim touches their content. -/
structure HealthView where
  uptime_seconds : ℤ
  uptime_human : String
  total_requests : ℕ
  total_errors : ℕ
  overall_error_rate : ℚ
  endpoints_count : ℕ
  service_status : String
deriving Repr, DecidableEq

/-- The `MetricsService.get_health_metrics` read. The `overall_error_rate`
entry guards its division (`if total_requests > 0 else 0`); the
`service_status` entry does not, so building the dict raises exactly when
`serviceStatusExpr` errors. -/
def get_health_metrics (s : Store) (uptimeSecs : ℤ) (uptimeHuman : String) :
    Except String HealthView :=
  let tr := totalRequests s
  let te := totalErrors s
  match serviceStatusExpr te tr with
  | Except.error e => Except.error e
  | Except.ok st =>
      Except.ok
        { uptime_seconds := uptimeSecs
          uptime_human := uptimeHuman
          total_requests := tr
          total_errors := te
          overall_error_rate := if 0 < tr then (te : ℚ) / tr else 0
          endpoints_count := s.length
          service_status := st }

/-- Split a character list at the first occurrence of `sep`. -/
def splitFirst (sep : Char) : List Char → Option (List Char × List Char)
  | [] => none
  | c :: cs =>
      if c = sep then some ([], cs)
      else
        match splitFirst sep cs with
        | some (l, r) => some (c :: l, r)
        | none => none

/-- Python `key.split(':', 1)` on keys that contain a colon: the part before
the first colon and everything after it. Every store key is built as
`f"{method}:{endpoint}"`, so a colon is always present; on a colon-free key
Python's two-name unpacking would raise, a case no store key reaches. -/
def splitKey (k : String) : String × String :=
  match splitFirst ':' k.toList with
  | some (l, r) => (String.mk l, String.mk r)
  | none => (k, "")

/-- The nine exposition lines `get_prometheus_metrics` emits per endpoint.
`floatRepr` abstracts Python's decimal rendering of the float average; no
claim depends on its text. -/
def endpointLines (floatRepr : ℚ → String) (km : String × EndpointMetric) :
    List String :=
  let method := (splitKey km.1).1
  let path := (splitKey km.1).2
  let labels := "method=\"" ++ method ++ "\",endpoint=\"" ++ path ++ "\""
  let avg : ℚ := if 0 < km.2.count then km.2.total_time / km.2.count else 0
  ["# HELP http_requests_total Total number of HTTP requests",
   "# TYPE http_requests_total counter",
   "http_requests_total\x7b" ++ labels ++ "\x7d " ++ toString km.2.count,
   "# HELP http_errors_total Total number of HTTP errors",
   "# TYPE http_errors_total counter",
   "http_errors_total\x7b" ++ labels ++ "\x7d " ++ toString km.2.errors,
   "# HELP http_request_duration_seconds Average request duration",
   "# TYPE http_request_duration_seconds gauge",
   "http_request_duration_seconds\x7b" ++ labels ++ "\x7d " ++ floatRepr avg]

/-- The lines of `MetricsService.get_prometheus_metrics` (joined with
newlines in the source): three uptime lines, then nine lines per endpoint in
insertion order. `uptimeStr` abstracts the rendered float uptime. -/
def prometheusLines (floatRepr : ℚ → String) (uptimeStr : String) (s : Store) :
    List String :=
  ["# HELP service_uptime_seconds Service uptime in seconds",
   "# TYPE service_uptime_seconds counter",
   "service_uptime_seconds " ++ uptimeStr]
  ++ s.flatMap (endpointLines floatRepr)

end MetricsService

namespace OrdersApp

/-- A Flask response triple `(body, status, {'Content-Type': ...})`. -/
structure HttpResponse where
  body : String
  status : ℕ
  contentType : String
deriving Repr, DecidableEq

/-- The `/metrics` route handler `prometheus_metrics` of
src/services/orders/app.py: the outcome of the `try` body
(`metrics_service.get_prometheus_metrics()`) is passed in as an `Except`
value, `Except.error` standing for an exception raised inside the `try`. The
handler catches it and answers with the fallback text. -/
def prometheus_metrics (render : Except String String) : HttpResponse :=
  match render with
  | Except.ok result =>
      { body := result, status := 200, contentType := "text/plain; charset=utf-8" }
  | Except.error _ =>
      { body := "# Error generating metrics\n", status := 500
        contentType := "text/plain; charset=utf-8" }

end OrdersApp

namespace MetricsService

/-- Projection of a single-endpoint query result. -/
def singleDict (q : QueryOut) : List (String × PyVal) :=
  match q with
  | QueryOut.single d => d
  | QueryOut.multi _ => []

/-- A store holding one key, as one successful `GET /health` call leaves it. -/
def storeOne : Store := [("GET:/health", ⟨1, 1, 0, some 5, [1]⟩)]

/-- A store holding one key whose only call failed. -/
def storeErr : Store := [("POST:/orders", ⟨1, 2, 1, some 7, [2]⟩)]

/-- A concrete successful call. -/
def callA : Call := ⟨"/orders", "POST", 200, 1, 5⟩

/-- A concrete failed call on the same key. -/
def callB : Call := ⟨"/orders", "POST", 503, 2, 6⟩

/-- A concrete two-call sequence on one key. -/
def csW : List Call := [callA, callB]

/-- The record `csW` produces for the key `"POST:/orders"`. -/
def mW : EndpointMetric := ⟨2, 3, 1, some 6, [1, 2]⟩

lemma storeLookup_update_self (s : Store) (k : String)
    (f : EndpointMetric → EndpointMetric) :
    storeLookup (storeUpdate s k f) k = some (f ((storeLookup s k).getD freshMetric)) := by
  induction s with
  | nil => simp [storeUpdate, storeLookup]
  | cons p rest ih =>
      obtain ⟨k', m⟩ := p
      by_cases h : k' = k <;> simp [storeUpdate, storeLookup, h, ih]

lemma storeLookup_update_other (s : Store) (k j : String)
    (f : EndpointMetric → EndpointMetric) (h : k ≠ j) :
    storeLookup (storeUpdate s k f) j = storeLookup s j := by
  induction s with
  | nil => simp [storeUpdate, storeLookup, h]
  | cons p rest ih =>
      obtain ⟨k', m⟩ := p
      by_cases hk : k' = k
      · subst hk
        simp [storeUpdate, storeLookup, h]
      · simp [storeUpdate, storeLookup, hk, ih]

lemma optRun_some (l : List Call) (m : EndpointMetric) :
    optRun (some m) l = some (runCalls m l) := by
  induction l generalizing m with
  | nil => rfl
  | cons c t ih => simpa [optRun, runCalls] using ih _

lemma optRun_none_of_ne_nil (l : List Call) (h : l ≠ []) :
    optRun none l = some (runCalls freshMetric l) := by
  cases l with
  | nil => exact absurd rfl h
  | cons c t =>
      simpa [optRun, runCalls] using optRun_some t _

lemma trackStep_eq (s : Store) (c : Call) :
    trackStep s c =
      storeUpdate s (callKey c) fun m =>
        updateMetric m c.status_code c.response_time c.now := rfl

lemma keyCalls_cons (c : Call) (t : List Call) (k : String) :
    keyCalls (c :: t) k =
      if callKey c = k then c :: keyCalls t k else keyCalls t k := by
  by_cases h : callKey c = k <;> simp [keyCalls, List.filter_cons, h]

lemma storeLookup_foldl (cs : List Call) (s : Store) (k : String) :
    storeLookup (cs.foldl trackStep s) k = optRun (storeLookup s k) (keyCalls cs k) := by
  induction cs generalizing s with
  | nil => simp [keyCalls, optRun]
  | cons c t ih =>
      rw [List.foldl_cons, ih, keyCalls_cons]
      by_cases h : callKey c = k
      · subst h
        rw [if_pos rfl, trackStep_eq, storeLookup_update_self]
        rfl
      · rw [if_neg h, trackStep_eq, storeLookup_update_other _ _ _ _ h]

/-- The record a key holds after replaying a call sequence: exactly the fold
of that key's calls, starting from the `defaultdict` default; a key with no
calls is absent. -/
lemma replay_lookup (cs : List Call) (k : String) :
    storeLookup (replay cs) k =
      if keyCalls cs k = [] then none
      else some (runCalls freshMetric (keyCalls cs k)) := by
  rw [replay, storeLookup_foldl]
  by_cases h : keyCalls cs k = []
  · simp [h, storeLookup, optRun]
  · rw [if_neg h]
    exact optRun_none_of_ne_nil _ h

lemma runCalls_cons (c : Call) (t : List Call) (m : EndpointMetric) :
    runCalls m (c :: t) =
      runCalls (updateMetric m c.status_code c.response_time c.now) t := rfl

lemma runCalls_count (l : List Call) (m : EndpointMetric) :
    (runCalls m l).count = m.count + l.length := by
  induction l generalizing m with
  | nil => simp [runCalls]
  | cons c t ih =>
      rw [runCalls_cons, ih, updateMetric]
      simp
      omega

lemma runCalls_total_time (l : List Call) (m : EndpointMetric) :
    (runCalls m l).total_time = m.total_time + (l.map fun c => c.response_time).sum := by
  induction l generalizing m with
  | nil => simp [runCalls]
  | cons c t ih =>
      rw [runCalls_cons, ih, updateMetric]
      simp
      ring

lemma runCalls_errors (l : List Call) (m : EndpointMetric) :
    (runCalls m l).errors =
      m.errors + l.countP fun c => 400 ≤ c.status_code := by
  induction l generalizing m with
  | nil => simp [runCalls]
  | cons c t ih =>
      rw [runCalls_cons, ih, updateMetric, List.countP_cons]
      by_cases h : 400 ≤ c.status_code
      · simp [h]
        omega
      · simp [h]

lemma length_takeLast (n : ℕ) (l : List ℚ) :
    (takeLast n l).length = min n l.length := by
  simp [takeLast]
  omega

lemma takeLast_of_le (n : ℕ) (l : List ℚ) (h : l.length ≤ n) :
    takeLast n l = l := by
  simp [takeLast, Nat.sub_eq_zero_of_le h]

lemma dequeAppend_eq_of_lt (l : List ℚ) (x : ℚ) (h : l.length < 100) :
    dequeAppend l x = l ++ [x] := by
  simp only [dequeAppend, List.length_append, List.length_singleton]
  rw [if_neg (by omega)]

lemma dequeAppend_eq_of_len (l : List ℚ) (x : ℚ) (h : l.length = 100) :
    dequeAppend l x = l.tail ++ [x] := by
  simp only [dequeAppend, List.length_append, List.length_singleton]
  rw [if_pos (by omega)]
  exact List.tail_append_of_ne_nil (by
    intro hnil
    rw [hnil] at h
    simp at h)

lemma dequeAppend_takeLast (ys : List ℚ) (x : ℚ) :
    dequeAppend (takeLast 100 ys) x = takeLast 100 (ys ++ [x]) := by
  rcases lt_trichotomy ys.length 100 with h | h | h
  · rw [takeLast_of_le 100 ys (by omega), dequeAppend_eq_of_lt ys x h,
      takeLast_of_le 100 _ (by simp; omega)]
  · rw [takeLast_of_le 100 ys (by omega), dequeAppend_eq_of_len ys x h, takeLast]
    simp only [List.length_append, List.length_singleton]
    rw [show ys.length + 1 - 100 = 1 from by omega,
      List.drop_append_of_le_length (by omega), List.drop_one]
  · have hlen : (takeLast 100 ys).length = 100 := by
      rw [length_takeLast]
      omega
    rw [dequeAppend_eq_of_len _ x hlen, takeLast, takeLast]
    simp only [List.length_append, List.length_singleton]
    rw [List.drop_append_of_le_length (by omega), ← List.drop_one, List.drop_drop,
      show ys.length - 100 + 1 = ys.length + 1 - 100 from by omega]

lemma runCalls_buffer (l : List Call) (m : EndpointMetric) (ds : List ℚ)
    (h : m.response_times = takeLast 100 ds) :
    (runCalls m l).response_times =
      takeLast 100 (ds ++ l.map fun c => c.response_time) := by
  induction l generalizing m ds with
  | nil => simpa [runCalls] using h
  | cons c t ih =>
      rw [runCalls_cons,
        ih (updateMetric m c.status_code c.response_time c.now) (ds ++ [c.response_time])
          (by rw [updateMetric]; simpa [h] using dequeAppend_takeLast ds c.response_time)]
      simp

end MetricsService


namespace MetricsService

/-- Claim C1 (refuted as stated; the spec is the clear intent): on a store
with zero recorded requests across all keys, `get_health_metrics` does not
return `"unknown"` — the `service_status` conditional evaluates
`total_errors / total_requests` before its `total_requests > 0` guard, so it
raises `ZeroDivisionError` and the `'unknown'` arm is unreachable. -/
theorem c1_health_zero_requests_raises (s : Store) (u : ℤ) (uh : String)
    (h0 : totalRequests s = 0) :
    get_health_metrics s u uh =
      Except.error "ZeroDivisionError: division by zero" := by
  simp [get_health_metrics, serviceStatusExpr, h0]

/-- Claim C1, witness: the fresh empty store has zero requests and the
health read errors on it. -/
theorem c1_witness :
    totalRequests ([] : Store) = 0 ∧
      get_health_metrics ([] : Store) 0 "0:00:00" =
        Except.error "ZeroDivisionError: division by zero" :=
  ⟨rfl, c1_health_zero_requests_raises [] 0 "0:00:00" rfl⟩

/-- Claim C4: with at least one recorded request the health read succeeds,
reports the exact overall error rate, and derives `service_status` as
`"healthy"` exactly when that rate is strictly below 0.05 and `"degraded"`
otherwise; a rate of exactly 0.05 therefore yields `"degraded"`. -/
theorem c4_health_status_threshold (s : Store) (u : ℤ) (uh : String)
    (h0 : 0 < totalRequests s) :
    ∃ v, get_health_metrics s u uh = Except.ok v ∧
      v.overall_error_rate = (totalErrors s : ℚ) / totalRequests s ∧
      (v.service_status = "healthy" ↔ v.overall_error_rate < 1/20) ∧
      (v.service_status = "degraded" ↔ 1/20 ≤ v.overall_error_rate) ∧
      (v.overall_error_rate = 1/20 → v.service_status = "degraded") := by
  have hne : totalRequests s ≠ 0 := by omega
  have hstat : serviceStatusExpr (totalErrors s) (totalRequests s) =
      Except.ok (if (totalErrors s : ℚ) / totalRequests s < 1/20
        then "healthy" else "degraded") := by
    rw [serviceStatusExpr, if_neg hne]
    by_cases hr : (totalErrors s : ℚ) / totalRequests s < 1/20
    · rw [if_pos hr, if_pos hr]
    · rw [if_neg hr, if_neg hr, if_pos h0]
  refine ⟨{ uptime_seconds := u, uptime_human := uh
            total_requests := totalRequests s, total_errors := totalErrors s
            overall_error_rate := (totalErrors s : ℚ) / totalRequests s
            endpoints_count := s.length
            service_status := if (totalErrors s : ℚ) / totalRequests s < 1/20
              then "healthy" else "degraded" }, ?_, rfl, ?_, ?_, ?_⟩
  · simp [get_health_metrics, hstat, h0]
  · by_cases hr : (totalErrors s : ℚ) / totalRequests s < 1/20 <;> simp [hr]
  · by_cases hr : (totalErrors s : ℚ) / totalRequests s < 1/20
    · simp [hr, not_le.mpr hr]
    · simp [hr, le_of_not_lt hr]
  · intro hb
    have hb' : (totalErrors s : ℚ) / totalRequests s = 1/20 := hb
    simp only [hb', HealthView.service_status]
    rw [if_neg (lt_irrefl _)]

/-- Claim C4, witness: a store whose single recorded request failed has
error rate 1, so the health read reports `"degraded"`. -/
theorem c4_witness :
    0 < totalRequests storeErr ∧
      (∃ v, get_health_metrics storeErr 0 "0:00:00" = Except.ok v ∧
        v.overall_error_rate = (totalErrors storeErr : ℚ) / totalRequests storeErr ∧
        (v.service_status = "healthy" ↔ v.overall_error_rate < 1/20) ∧
        (v.service_status = "degraded" ↔ 1/20 ≤ v.overall_error_rate) ∧
        (v.overall_error_rate = 1/20 → v.service_status = "degraded")) :=
  ⟨by decide, c4_health_status_threshold storeErr 0 "0:00:00" (by decide)⟩

end MetricsService

namespace OrdersApp

/-- Claim C2 is false on the code: when rendering the Prometheus feed fails,
the `/metrics` handler answers with HTTP status 500, not 200. -/
theorem c2_counterexample :
    (prometheus_metrics (Except.error "boom")).status ≠ 200 := by decide

/-- Claim C2, amended: when rendering the Prometheus feed fails, the
`/metrics` handler catches the exception and returns HTTP 500 with the
fallback body and the plain-text content type, rather than propagating the
exception to the transport layer. -/
theorem c2_amended_fallback (e : String) :
    prometheus_metrics (Except.error e) =
      { body := "# Error generating metrics\n", status := 500
        contentType := "text/plain; charset=utf-8" } := rfl

end OrdersApp

namespace MetricsService

/-- Claim C3 is false on the code: for a present key, the single-endpoint
branch of `get_endpoint_metrics` returns a copy of the raw internal record —
its dict has a `count` key and no `total_requests` key — instead of the
derived view. Shown at a concrete store holding the key `"GET:/health"`. -/
theorem c3_counterexample :
    List.lookup "total_requests"
        (singleDict (get_endpoint_metrics storeOne (some "GET:/health")).1) = none ∧
      List.lookup "count"
        (singleDict (get_endpoint_metrics storeOne (some "GET:/health")).1) =
          some (PyVal.int 1) := by
  constructor <;> rfl

/-- Claim C3, amended: for every key present in the store, querying with that
key returns the shallow copy of the raw internal record — the mapping with
keys `count`, `total_time`, `errors`, `last_access`, `response_times` — not
the derived view, and leaves the store unchanged. -/
theorem c3_amended_single_query_raw (s : Store) (k : String) (m : EndpointMetric)
    (hk : storeLookup s k = some m) (hne : k ≠ "") :
    get_endpoint_metrics s (some k) = (QueryOut.single (rawDict m), s) := by
  simp [get_endpoint_metrics, hne, hk]

/-- Claim C3, witness: querying `storeOne` for its present key yields the raw
record copy. -/
theorem c3_witness :
    storeLookup storeOne "GET:/health" = some ⟨1, 1, 0, some 5, [1]⟩ ∧
      "GET:/health" ≠ "" ∧
      get_endpoint_metrics storeOne (some "GET:/health") =
        (QueryOut.single (rawDict ⟨1, 1, 0, some 5, [1]⟩), storeOne) :=
  ⟨rfl, by decide,
    c3_amended_single_query_raw storeOne "GET:/health" ⟨1, 1, 0, some 5, [1]⟩ rfl (by decide)⟩

/-- Claim C9: querying a key that was never recorded is not an error: it
returns the empty dict, and — `dict.get` never inserting into the
`defaultdict` — the store mapping comes back unchanged. -/
theorem c9_absent_key_empty_result (s : Store) (k : String)
    (hk : storeLookup s k = none) (hne : k ≠ "") :
    get_endpoint_metrics s (some k) = (QueryOut.single [], s) := by
  simp [get_endpoint_metrics, hne, hk]

/-- Claim C9, witness: querying `storeOne` for an unrecorded key yields the
empty dict and the unchanged store. -/
theorem c9_witness :
    storeLookup storeOne "POST:/orders" = none ∧
      "POST:/orders" ≠ "" ∧
      get_endpoint_metrics storeOne (some "POST:/orders") =
        (QueryOut.single [], storeOne) :=
  ⟨rfl, by decide,
    c9_absent_key_empty_result storeOne "POST:/orders" rfl (by decide)⟩

end MetricsService

namespace MetricsService

lemma replay_lookup_some (cs : List Call) (k : String) (m : EndpointMetric)
    (hm : storeLookup (replay cs) k = some m) :
    keyCalls cs k ≠ [] ∧ m = runCalls freshMetric (keyCalls cs k) := by
  rw [replay_lookup] at hm
  by_cases h : keyCalls cs k = []
  · rw [if_pos h] at hm
    cases hm
  · rw [if_neg h] at hm
    exact ⟨h, (Option.some.inj hm).symm⟩

lemma pyRound2_zero : pyRound2 0 = 0 := by
  norm_num [pyRound2, roundHalfEven]

/-- Claim C10: for every nonempty buffer of at most the deque capacity 100,
the percentile index `int(n * 0.95)` is strictly below the length of the
sorted buffer, so indexing the sorted buffer in the derived view is always
in range and cannot raise. -/
theorem c10_percentile_index_in_range (l : List ℚ) (h1 : l ≠ [])
    (h2 : l.length ≤ 100) :
    percentileIndex l.length < (sortQ l).length := by
  rw [sortQ, List.length_insertionSort, percentileIndex]
  have h3 : 1 ≤ l.length := List.length_pos.mpr h1
  omega

/-- Claim C10, witness: a three-element buffer has index ⌊2.85⌋ = 2 < 3. -/
theorem c10_witness :
    ([(1:ℚ), 2, 3] ≠ []) ∧ [(1:ℚ), 2, 3].length ≤ 100 ∧
      percentileIndex [(1:ℚ), 2, 3].length < (sortQ [(1:ℚ), 2, 3]).length :=
  ⟨by decide, by decide,
    c10_percentile_index_in_range [(1:ℚ), 2, 3] (by decide) (by decide)⟩

/-- Claim C5: after any call sequence, the buffer of a present key holds
exactly the most recent (at most) 100 durations recorded for it, older ones
evicted first-in-first-out; the reported `p95_response_time_ms` is computed
from that window alone by sorting it ascending (`sortQ` really sorts: its
output is ordered and a permutation of the buffer) and indexing at
⌊0.95 · length⌋, and the p95 snapshot of an empty buffer is 0. -/
theorem c5_p95_window (cs : List Call) (k : String) (m : EndpointMetric)
    (hm : storeLookup (replay cs) k = some m) :
    m.response_times = takeLast 100 (keyDurations cs k) ∧
      List.Sorted (· ≤ ·) (sortQ m.response_times) ∧
      (sortQ m.response_times).Perm m.response_times ∧
      List.lookup "p95_response_time_ms" (derivedDict m) =
        some (PyVal.rat (pyRound2
          (p95raw (takeLast 100 (keyDurations cs k)) * 1000))) ∧
      p95raw [] = 0 := by
  obtain ⟨hne, hmeq⟩ := replay_lookup_some cs k m hm
  subst hmeq
  have hbuf : (runCalls freshMetric (keyCalls cs k)).response_times =
      takeLast 100 (keyDurations cs k) := by
    simpa [keyDurations] using
      runCalls_buffer (keyCalls cs k) freshMetric [] rfl
  refine ⟨hbuf, List.sorted_insertionSort _ _, List.perm_insertionSort _ _, ?_, rfl⟩
  simp [derivedDict, List.lookup, hbuf]

/-- Claim C6: the reported `avg_response_time_ms` of a present key is the
rounded value of 1000 times the full-history sum of all durations ever
recorded for the key divided by its total call count — the unbounded
`total_time` accumulator, never the 100-sample window — and a record with
zero count reports 0. -/
theorem c6_avg_full_history (cs : List Call) (k : String) (m : EndpointMetric)
    (hm : storeLookup (replay cs) k = some m) :
    m.total_time = (keyDurations cs k).sum ∧
      m.count = (keyCalls cs k).length ∧
      List.lookup "avg_response_time_ms" (derivedDict m) =
        some (PyVal.rat (pyRound2
          (1000 * (keyDurations cs k).sum / (keyCalls cs k).length))) ∧
      (∀ m' : EndpointMetric, m'.count = 0 →
        List.lookup "avg_response_time_ms" (derivedDict m') =
          some (PyVal.rat 0)) := by
  obtain ⟨hne, hmeq⟩ := replay_lookup_some cs k m hm
  subst hmeq
  have ht : (runCalls freshMetric (keyCalls cs k)).total_time =
      (keyDurations cs k).sum := by
    simpa [keyDurations, freshMetric] using
      runCalls_total_time (keyCalls cs k) freshMetric
  have hc : (runCalls freshMetric (keyCalls cs k)).count =
      (keyCalls cs k).length := by
    simpa [freshMetric] using runCalls_count (keyCalls cs k) freshMetric
  have hlen : 0 < (keyCalls cs k).length := List.length_pos.mpr hne
  refine ⟨ht, hc, ?_, ?_⟩
  · have hv : (if 0 < (runCalls freshMetric (keyCalls cs k)).count
        then (runCalls freshMetric (keyCalls cs k)).total_time /
          (runCalls freshMetric (keyCalls cs k)).count
        else 0) * 1000 =
        1000 * (keyDurations cs k).sum / (keyCalls cs k).length := by
      rw [ht, hc, if_pos hlen]
      ring
    simp [derivedDict, List.lookup, hv]
  · intro m' h
    simp [derivedDict, List.lookup, h, pyRound2_zero]

/-- Claim C7: the reported `total_errors` of a present key counts exactly its
calls with status ≥ 400, the invariant `errors ≤ count` holds for the key in
every state reachable by replaying a call sequence, and one further tracked
call can only increase both counters. -/
theorem c7_errors_invariant (cs : List Call) (k : String) (m : EndpointMetric)
    (hm : storeLookup (replay cs) k = some m) :
    m.errors = (keyCalls cs k).countP (fun c => 400 ≤ c.status_code) ∧
      List.lookup "total_errors" (derivedDict m) =
        some (PyVal.int ((keyCalls cs k).countP (fun c => 400 ≤ c.status_code))) ∧
      m.errors ≤ m.count ∧
      (∀ st rt now, m.count ≤ (updateMetric m st rt now).count ∧
        m.errors ≤ (updateMetric m st rt now).errors) := by
  obtain ⟨hne, hmeq⟩ := replay_lookup_some cs k m hm
  subst hmeq
  have herr : (runCalls freshMetric (keyCalls cs k)).errors =
      (keyCalls cs k).countP (fun c => 400 ≤ c.status_code) := by
    simpa [freshMetric] using runCalls_errors (keyCalls cs k) freshMetric
  have hc : (runCalls freshMetric (keyCalls cs k)).count =
      (keyCalls cs k).length := by
    simpa [freshMetric] using runCalls_count (keyCalls cs k) freshMetric
  refine ⟨herr, ?_, ?_, ?_⟩
  · simp [derivedDict, List.lookup, herr]
  · rw [herr, hc]
    exact List.countP_le_length _
  · intro st rt now
    constructor <;> simp [updateMetric]

end MetricsService

namespace MetricsService

lemma csW_lookup : storeLookup (replay csW) "POST:/orders" = some mW := by
  have hk : "POST" ++ ":" ++ "/orders" = "POST:/orders" := rfl
  norm_num [replay, csW, callA, callB, trackStep, track_request, storeUpdate,
    updateMetric, freshMetric, dequeAppend, storeLookup, mW, hk]

/-- Claim C5, witness: the two-call sequence `csW` leaves key
`"POST:/orders"` with buffer `[1, 2]`, on which the window/percentile facts
hold concretely. -/
theorem c5_witness :
    storeLookup (replay csW) "POST:/orders" = some mW ∧
      (mW.response_times = takeLast 100 (keyDurations csW "POST:/orders") ∧
        List.Sorted (· ≤ ·) (sortQ mW.response_times) ∧
        (sortQ mW.response_times).Perm mW.response_times ∧
        List.lookup "p95_response_time_ms" (derivedDict mW) =
          some (PyVal.rat (pyRound2
            (p95raw (takeLast 100 (keyDurations csW "POST:/orders")) * 1000))) ∧
        p95raw [] = 0) :=
  ⟨csW_lookup, c5_p95_window csW "POST:/orders" mW csW_lookup⟩

/-- Claim C6, witness: for `csW` the full-history mean facts hold at the
concrete record `mW`. -/
theorem c6_witness :
    storeLookup (replay csW) "POST:/orders" = some mW ∧
      (mW.total_time = (keyDurations csW "POST:/orders").sum ∧
        mW.count = (keyCalls csW "POST:/orders").length ∧
        List.lookup "avg_response_time_ms" (derivedDict mW) =
          some (PyVal.rat (pyRound2
            (1000 * (keyDurations csW "POST:/orders").sum /
              (keyCalls csW "POST:/orders").length))) ∧
        (∀ m' : EndpointMetric, m'.count = 0 →
          List.lookup "avg_response_time_ms" (derivedDict m') =
            some (PyVal.rat 0))) :=
  ⟨csW_lookup, c6_avg_full_history csW "POST:/orders" mW csW_lookup⟩

/-- Claim C7, witness: for `csW` (one success, one 503) the error-counting
facts hold at the concrete record `mW`. -/
theorem c7_witness :
    storeLookup (replay csW) "POST:/orders" = some mW ∧
      (mW.errors = (keyCalls csW "POST:/orders").countP
          (fun c => 400 ≤ c.status_code) ∧
        List.lookup "total_errors" (derivedDict mW) =
          some (PyVal.int ((keyCalls csW "POST:/orders").countP
            (fun c => 400 ≤ c.status_code))) ∧
        mW.errors ≤ mW.count ∧
        (∀ st rt now, mW.count ≤ (updateMetric mW st rt now).count ∧
          mW.errors ≤ (updateMetric mW st rt now).errors)) :=
  ⟨csW_lookup, c7_errors_invariant csW "POST:/orders" mW csW_lookup⟩

end MetricsService

namespace MetricsService

/-- Claim C8: on a fresh store the Prometheus exposition is exactly the
three `service_uptime_seconds` lines (HELP, TYPE, value) with no
per-endpoint lines; after exactly one tracked `GET /health` request with
status 200 it contains the request-counter line with value 1 and the
error-counter line with value 0 for that endpoint, whatever the elapsed
duration and however the float values are rendered. -/
theorem c8_prometheus_exposition (floatRepr : ℚ → String) (u : String)
    (rt : ℚ) (now : ℕ) :
    prometheusLines floatRepr u ([] : Store) =
      ["# HELP service_uptime_seconds Service uptime in seconds",
       "# TYPE service_uptime_seconds counter",
       "service_uptime_seconds " ++ u] ∧
      "http_requests_total\x7bmethod=\"GET\",endpoint=\"/health\"\x7d 1" ∈
        prometheusLines floatRepr u (track_request [] "/health" "GET" 200 rt now) ∧
      "http_errors_total\x7bmethod=\"GET\",endpoint=\"/health\"\x7d 0" ∈
        prometheusLines floatRepr u (track_request [] "/health" "GET" 200 rt now) := by
  have hk : "GET" ++ ":" ++ "/health" = "GET:/health" := rfl
  have hstore : track_request [] "/health" "GET" 200 rt now =
      [("GET:/health", ⟨1, rt, 0, some now, [rt]⟩)] := by
    simp [track_request, storeUpdate, updateMetric, freshMetric, dequeAppend, hk]
  have hsplit : splitKey "GET:/health" = ("GET", "/health") := rfl
  have hall : prometheusLines floatRepr u [("GET:/health", ⟨1, rt, 0, some now, [rt]⟩)] =
      ["# HELP service_uptime_seconds Service uptime in seconds",
       "# TYPE service_uptime_seconds counter",
       "service_uptime_seconds " ++ u,
       "# HELP http_requests_total Total number of HTTP requests",
       "# TYPE http_requests_total counter",
       "http_requests_total\x7bmethod=\"GET\",endpoint=\"/health\"\x7d 1",
       "# HELP http_errors_total Total number of HTTP errors",
       "# TYPE http_errors_total counter",
       "http_errors_total\x7bmethod=\"GET\",endpoint=\"/health\"\x7d 0",
       "# HELP http_request_duration_seconds Average request duration",
       "# TYPE http_request_duration_seconds gauge",
       "http_request_duration_seconds\x7bmethod=\"GET\",endpoint=\"/health\"\x7d " ++
         floatRepr (rt / ((1:ℕ) : ℚ))] := by
    simp only [prometheusLines, endpointLines, List.flatMap_cons, List.flatMap_nil,
      List.append_nil]
    norm_num
    exact ⟨rfl, rfl, rfl⟩
  refine ⟨by simp [prometheusLines], ?_, ?_⟩ <;> rw [hstore, hall] <;> simp

end MetricsService
